import Mathlib

/-!
# Verification of the VPC endpoint service and S3 object copy resources

Shallow embedding of `aws/resource_aws_vpc_endpoint_service.go` and
`aws/resource_aws_s3_object_copy.go` from `civitaspo/terraform-provider-aws`.

Remote API calls are modelled by an explicit environment of responses; each
CRUD function becomes a pure Lean function from the desired state and that
environment to the trace of remote calls it issues together with its result.
Terraform sets of strings are modelled as `Finset String`, matching
`schema.TypeSet` with string elements.
-/

namespace TfAws

/-! ## EC2 service state labels (aws-sdk-go `ec2.ServiceState*` constants) -/

def serviceStatePending : String := "Pending"
def serviceStateAvailable : String := "Available"
def serviceStateDeleting : String := "Deleting"
def serviceStateDeleted : String := "Deleted"
def serviceStateFailed : String := "Failed"

/-! ## AWS errors and `isAWSErr` -/

/-- A structured AWS API error: an error code plus a message, as carried by
`awserr.Error` in the Go SDK. -/
structure AwsError where
  code : String
  message : String
deriving DecidableEq, Repr

/-- Embeds the provider helper `isAWSErr(err, code, message)`: the error is an
`awserr.Error` whose code equals `code` and whose message contains `message`
(every call in these two source files passes `message = ""`). -/
def isAWSErr (e : AwsError) (code message : String) : Bool :=
  e.code == code && decide (message.data <:+: e.message.data)

/-! ## The diff engine: `setVpcEndpointServiceUpdateLists`

The source computes, for a changed `schema.TypeSet` attribute with old value
`os` and new value `ns`, `add := expandStringSet(ns.Difference(os))` and
`remove := expandStringSet(os.Difference(ns))`, and assigns each to the
corresponding request field only when non-empty (leaving the field `nil`
otherwise); when the attribute did not change, neither field is assigned. -/

/-- The pair of set differences computed by `setVpcEndpointServiceUpdateLists`
(`ns.Difference(os)`, `os.Difference(ns)`) for desired set `n` and observed
set `o`. -/
def diffEngine (n o : Finset String) : Finset String × Finset String :=
  (n \ o, o \ n)

/-- Embeds `setVpcEndpointServiceUpdateLists` for one set-valued attribute:
given the attribute's old value `o` and new value `n`, returns the pair of
optional request fields `(add, remove)`.  `d.HasChange(key)` for a set-valued
attribute holds exactly when the two sets differ; a field is populated only
when the corresponding difference is non-empty (`len(add) > 0`,
`len(remove) > 0`), and is left absent (`none`, modelling the untouched `nil`
slice) otherwise. -/
def setVpcEndpointServiceUpdateLists (o n : Finset String) :
    Option (Finset String) × Option (Finset String) :=
  if o ≠ n then
    (if (diffEngine n o).1.Nonempty then some (diffEngine n o).1 else none,
     if (diffEngine n o).2.Nonempty then some (diffEngine n o).2 else none)
  else (none, none)

/-! ## State refresh: `vpcEndpointServiceStateRefresh` -/

/-- The slice of `ec2.ServiceConfiguration` the resource logic inspects. -/
structure ServiceConfiguration where
  serviceState : String
deriving DecidableEq, Repr

/-- Result of a `DescribeVpcEndpointServiceConfigurations` call. -/
inductive DescribeResult where
  | ok (svc : ServiceConfiguration)
  | err (e : AwsError)
deriving DecidableEq, Repr

/-- The first component of the triple returned by a
`resource.StateRefreshFunc`: `nil`, the literal `false` returned on the
not-found path, or the service configuration. -/
inductive RefreshSnapshot where
  | nil
  | notFoundMarker
  | svc (cfg : ServiceConfiguration)
deriving DecidableEq, Repr

/-- The `(interface{}, string, error)` triple returned by one invocation of
the refresh closure. -/
structure RefreshResult where
  snapshot : RefreshSnapshot
  state : String
  error : Option String
deriving DecidableEq, Repr

/-- Embeds the body of the closure returned by
`vpcEndpointServiceStateRefresh`: a describe error with code
`InvalidVpcEndpointServiceId.NotFound` yields `(false, Deleted, nil)`; any
other describe error is propagated with an empty state; a configuration in
the `Failed` state yields a non-nil error; otherwise the configuration and
its state are returned with no error. -/
def vpcEndpointServiceStateRefresh (resp : DescribeResult) : RefreshResult :=
  match resp with
  | .err e =>
    if isAWSErr e "InvalidVpcEndpointServiceId.NotFound" "" then
      ⟨.notFoundMarker, serviceStateDeleted, none⟩
    else
      ⟨.nil, "", some e.message⟩
  | .ok svc =>
    if svc.serviceState = serviceStateFailed then
      ⟨.nil, svc.serviceState, some "VPC Endpoint Service is in a failed state"⟩
    else
      ⟨.svc svc, svc.serviceState, none⟩

/-! ## The state poller -/

/-- Outcome of one polling run, distinguishing success, an error returned by
the refresh function, an unexpected (neither pending nor target) state label,
and exhaustion of the polling budget (timeout) carrying the last seen label. -/
inductive PollOutcome where
  | success (snapshot : RefreshSnapshot)
  | refreshError (msg : String)
  | unexpectedState (state : String)
  | timeout (lastState : String)
deriving DecidableEq, Repr

/-- Modelled from the spec: the generic State Poller
(`resource.StateChangeConf.WaitForState` of the plugin SDK, an external
framework primitive not present under `src/`).  Per §4.1 of the spec it
repeatedly invokes the refresh function until: the refresh returns a non-nil
error (fail immediately with that error, before any Pending/Target
classification); the returned label is in Target (succeed with the latest
snapshot); the label is outside Pending ∪ Target (fail immediately); or the
time budget — modelled by the finite list of refresh results — is exhausted
(fail with a timeout error carrying the last observed label). -/
def pollStates (pending target : List String) :
    List RefreshResult → String → PollOutcome
  | [], last => .timeout last
  | r :: rs, _ =>
    match r.error with
    | some msg => .refreshError msg
    | none =>
      if r.state ∈ target then .success r.snapshot
      else if r.state ∈ pending then pollStates pending target rs r.state
      else .unexpectedState r.state

/-- Embeds the `StateChangeConf` in `vpcEndpointServiceWaitUntilAvailable`:
`Pending = {Pending}`, `Target = {Available}`, refreshing via
`vpcEndpointServiceStateRefresh`.  The argument is the sequence of describe
responses the remote yields during the wait. -/
def vpcEndpointServiceWaitUntilAvailable (resps : List DescribeResult) : PollOutcome :=
  pollStates [serviceStatePending] [serviceStateAvailable]
    (resps.map vpcEndpointServiceStateRefresh) ""

/-- Embeds the `StateChangeConf` in `waitForVpcEndpointServiceDeletion`:
`Pending = {Available, Deleting}`, `Target = {Deleted}`, refreshing via
`vpcEndpointServiceStateRefresh`. -/
def waitForVpcEndpointServiceDeletion (resps : List DescribeResult) : PollOutcome :=
  pollStates [serviceStateAvailable, serviceStateDeleting] [serviceStateDeleted]
    (resps.map vpcEndpointServiceStateRefresh) ""

/-! ## Remote requests and the call trace -/

/-- The fields of `ec2.CreateVpcEndpointServiceConfigurationInput` populated
by `resourceAwsVpcEndpointServiceCreate`.  An `Option` field is `none` when
the source leaves the SDK field `nil`.  The `TagSpecifications` field, which
no claim touches, is not modelled. -/
structure CreateVpcEndpointServiceConfigurationInput where
  acceptanceRequired : Bool
  privateDnsName : Option String
  gatewayLoadBalancerArns : Option (Finset String)
  networkLoadBalancerArns : Option (Finset String)
deriving DecidableEq

/-- The fields of `ec2.ModifyVpcEndpointServiceConfigurationInput` populated
by `resourceAwsVpcEndpointServiceUpdate`. -/
structure ModifyVpcEndpointServiceConfigurationInput where
  serviceId : String
  privateDnsName : Option String
  acceptanceRequired : Option Bool
  addGatewayLoadBalancerArns : Option (Finset String)
  removeGatewayLoadBalancerArns : Option (Finset String)
  addNetworkLoadBalancerArns : Option (Finset String)
  removeNetworkLoadBalancerArns : Option (Finset String)
deriving DecidableEq

/-- The fields of `ec2.ModifyVpcEndpointServicePermissionsInput` populated by
the create and update functions. -/
structure ModifyVpcEndpointServicePermissionsInput where
  serviceId : String
  addAllowedPrincipals : Option (Finset String)
  removeAllowedPrincipals : Option (Finset String)
deriving DecidableEq

/-- One observable step taken by a CRUD function: a remote API call, a run of
one of the two pollers, or the tag-update helper. -/
inductive RemoteCall where
  | createService (req : CreateVpcEndpointServiceConfigurationInput)
  | pollAvailable
  | modifyConfiguration (req : ModifyVpcEndpointServiceConfigurationInput)
  | modifyPermissions (req : ModifyVpcEndpointServicePermissionsInput)
  | updateTags
  | readService (serviceId : String)
  | deleteService (serviceId : String)
  | pollDeletion
deriving DecidableEq

instance exceptDecidableEq {ε α : Type} [DecidableEq ε] [DecidableEq α] :
    DecidableEq (Except ε α) := fun a b =>
  match a, b with
  | .error x, .error y =>
    if h : x = y then isTrue (h ▸ rfl) else isFalse (fun hc => h (Except.error.inj hc))
  | .ok x, .ok y =>
    if h : x = y then isTrue (h ▸ rfl) else isFalse (fun hc => h (Except.ok.inj hc))
  | .error _, .ok _ => isFalse (fun hc => Except.noConfusion hc)
  | .ok _, .error _ => isFalse (fun hc => Except.noConfusion hc)

/-- Trace and result of one CRUD invocation.  `persistedId` is the value the
resource id (`d.SetId`) holds when the function returns (`none`: never set). -/
structure CrudOutcome where
  calls : List RemoteCall
  persistedId : Option String
  result : Except String Unit
deriving DecidableEq

/-- Renders a `PollOutcome` as the optional error `WaitForState` returns:
`none` on success, the refresh error verbatim, and distinct texts for an
unexpected state and for timeout (the timeout text carries the last seen
label, per the framework's `TimeoutError`). -/
def pollOutcomeErr : PollOutcome → Option String
  | .success _ => none
  | .refreshError msg => msg
  | .unexpectedState s => some ("unexpected state " ++ s)
  | .timeout s => some ("timeout while waiting for state; last state: " ++ s)

/-- Embeds `vpcEndpointServiceWaitUntilAvailable`: runs the availability
poller and wraps any error as
`Error waiting for VPC Endpoint Service %s to become available: %s`. -/
def vpcEndpointServiceWaitUntilAvailableErr (serviceId : String)
    (resps : List DescribeResult) : Option String :=
  (pollOutcomeErr (vpcEndpointServiceWaitUntilAvailable resps)).map
    (fun msg =>
      "Error waiting for VPC Endpoint Service " ++ serviceId ++
        " to become available: " ++ msg)

/-! ## Create: `resourceAwsVpcEndpointServiceCreate` -/

/-- The desired-state attributes of `aws_vpc_endpoint_service` read by the
create function.  `privateDnsName = none` models an unset (or empty, which
`d.GetOk` conflates with unset) attribute. -/
structure VpcEndpointServiceDesired where
  acceptanceRequired : Bool
  privateDnsName : Option String
  gatewayLoadBalancerArns : Finset String
  networkLoadBalancerArns : Finset String
  allowedPrincipals : Finset String
deriving DecidableEq

/-- Remote responses consumed during one create invocation. -/
structure CreateEnv where
  createResult : Except AwsError String
  availabilityResps : List DescribeResult
  modifyPermissionsResult : Except AwsError Unit
  readResult : Except String Unit

/-- The `CreateVpcEndpointServiceConfigurationInput` built at lines 128-146:
the load-balancer ARN fields are populated only when the attribute is set and
non-empty (`d.GetOk` on a set already returns `ok = false` for an empty
set). -/
def mkCreateVpcEndpointServiceReq (d : VpcEndpointServiceDesired) :
    CreateVpcEndpointServiceConfigurationInput where
  acceptanceRequired := d.acceptanceRequired
  privateDnsName := d.privateDnsName
  gatewayLoadBalancerArns :=
    if d.gatewayLoadBalancerArns.Nonempty then some d.gatewayLoadBalancerArns else none
  networkLoadBalancerArns :=
    if d.networkLoadBalancerArns.Nonempty then some d.networkLoadBalancerArns else none

/-- Embeds `resourceAwsVpcEndpointServiceCreate`: issue the create call; on
success immediately persist the returned service id (`d.SetId`, line 154);
run the availability poller; when `allowed_principals` is set and non-empty
issue one `ModifyVpcEndpointServicePermissions` call whose add list is the
whole desired set and whose remove list is absent; finish with a full read.
Any failing step returns its error with no further calls. -/
def resourceAwsVpcEndpointServiceCreate (d : VpcEndpointServiceDesired)
    (env : CreateEnv) : CrudOutcome :=
  let req := mkCreateVpcEndpointServiceReq d
  match env.createResult with
  | .error e =>
    ⟨[.createService req], none,
     .error ("Error creating VPC Endpoint Service configuration: " ++ e.message)⟩
  | .ok serviceId =>
    match vpcEndpointServiceWaitUntilAvailableErr serviceId env.availabilityResps with
    | some msg => ⟨[.createService req, .pollAvailable], some serviceId, .error msg⟩
    | none =>
      if d.allowedPrincipals.Nonempty then
        let permReq : ModifyVpcEndpointServicePermissionsInput :=
          ⟨serviceId, some d.allowedPrincipals, none⟩
        match env.modifyPermissionsResult with
        | .error e =>
          ⟨[.createService req, .pollAvailable, .modifyPermissions permReq],
           some serviceId,
           .error ("error adding VPC Endpoint Service permissions: " ++ e.message)⟩
        | .ok _ =>
          ⟨[.createService req, .pollAvailable, .modifyPermissions permReq,
            .readService serviceId],
           some serviceId, env.readResult⟩
      else
        ⟨[.createService req, .pollAvailable, .readService serviceId],
         some serviceId, env.readResult⟩

/-! ## Update: `resourceAwsVpcEndpointServiceUpdate` -/

/-- The attributes of `aws_vpc_endpoint_service` consulted by the update
function; `d.HasChange(key)` is modelled as inequality between the old and
new value of the corresponding field. -/
structure VpcEndpointServiceConfigState where
  acceptanceRequired : Bool
  privateDnsName : String
  gatewayLoadBalancerArns : Finset String
  networkLoadBalancerArns : Finset String
  allowedPrincipals : Finset String
  tags : List (String × String)
deriving DecidableEq

/-- Remote responses consumed during one update invocation. -/
structure UpdateEnv where
  modifyConfigurationResult : Except AwsError Unit
  availabilityResps : List DescribeResult
  modifyPermissionsResult : Except AwsError Unit
  updateTagsResult : Except String Unit
  readResult : Except String Unit

/-- `d.HasChanges("acceptance_required", "gateway_load_balancer_arns",
"network_load_balancer_arns", "private_dns_name")` (line 286). -/
def vpcEndpointServiceConfigChanged (o n : VpcEndpointServiceConfigState) : Bool :=
  o.acceptanceRequired != n.acceptanceRequired ||
    o.gatewayLoadBalancerArns != n.gatewayLoadBalancerArns ||
    o.networkLoadBalancerArns != n.networkLoadBalancerArns ||
    o.privateDnsName != n.privateDnsName

/-- The `ModifyVpcEndpointServiceConfigurationInput` built at lines 287-303:
each scalar field is set only under its own `d.HasChange`, and each
set-valued field contributes add/remove lists through
`setVpcEndpointServiceUpdateLists`. -/
def mkModifyVpcEndpointServiceConfigReq (serviceId : String)
    (o n : VpcEndpointServiceConfigState) :
    ModifyVpcEndpointServiceConfigurationInput where
  serviceId := serviceId
  privateDnsName :=
    if o.privateDnsName ≠ n.privateDnsName then some n.privateDnsName else none
  acceptanceRequired :=
    if o.acceptanceRequired ≠ n.acceptanceRequired then some n.acceptanceRequired else none
  addGatewayLoadBalancerArns :=
    (setVpcEndpointServiceUpdateLists o.gatewayLoadBalancerArns n.gatewayLoadBalancerArns).1
  removeGatewayLoadBalancerArns :=
    (setVpcEndpointServiceUpdateLists o.gatewayLoadBalancerArns n.gatewayLoadBalancerArns).2
  addNetworkLoadBalancerArns :=
    (setVpcEndpointServiceUpdateLists o.networkLoadBalancerArns n.networkLoadBalancerArns).1
  removeNetworkLoadBalancerArns :=
    (setVpcEndpointServiceUpdateLists o.networkLoadBalancerArns n.networkLoadBalancerArns).2

/-- The `ModifyVpcEndpointServicePermissionsInput` built at lines 316-321:
add/remove allowed-principal lists through
`setVpcEndpointServiceUpdateLists`. -/
def mkModifyVpcEndpointServicePermReq (serviceId : String)
    (o n : VpcEndpointServiceConfigState) :
    ModifyVpcEndpointServicePermissionsInput where
  serviceId := serviceId
  addAllowedPrincipals :=
    (setVpcEndpointServiceUpdateLists o.allowedPrincipals n.allowedPrincipals).1
  removeAllowedPrincipals :=
    (setVpcEndpointServiceUpdateLists o.allowedPrincipals n.allowedPrincipals).2

/-- The tag block (lines 329-335) followed by the final full read (line 337)
of the update function. -/
def vpcEndpointServiceUpdateTagsPhase (serviceId : String)
    (o n : VpcEndpointServiceConfigState) (env : UpdateEnv)
    (callsSoFar : List RemoteCall) : CrudOutcome :=
  if o.tags ≠ n.tags then
    match env.updateTagsResult with
    | .error e =>
      ⟨callsSoFar ++ [.updateTags], some serviceId,
       .error ("error updating EC2 VPC Endpoint Service (" ++ serviceId ++ ") tags: " ++ e)⟩
    | .ok _ =>
      ⟨callsSoFar ++ [.updateTags, .readService serviceId], some serviceId, env.readResult⟩
  else
    ⟨callsSoFar ++ [.readService serviceId], some serviceId, env.readResult⟩

/-- The `allowed_principals` block (lines 315-327) of the update function:
one permissions-modify call exactly when the attribute changed, with no
poller wait afterwards. -/
def vpcEndpointServiceUpdatePermsPhase (serviceId : String)
    (o n : VpcEndpointServiceConfigState) (env : UpdateEnv)
    (callsSoFar : List RemoteCall) : CrudOutcome :=
  if o.allowedPrincipals ≠ n.allowedPrincipals then
    match env.modifyPermissionsResult with
    | .error e =>
      ⟨callsSoFar ++ [.modifyPermissions (mkModifyVpcEndpointServicePermReq serviceId o n)],
       some serviceId,
       .error ("Error modifying VPC Endpoint Service permissions: " ++ e.message)⟩
    | .ok _ =>
      vpcEndpointServiceUpdateTagsPhase serviceId o n env
        (callsSoFar ++ [.modifyPermissions (mkModifyVpcEndpointServicePermReq serviceId o n)])
  else
    vpcEndpointServiceUpdateTagsPhase serviceId o n env callsSoFar

/-- Embeds `resourceAwsVpcEndpointServiceUpdate`: when any of the four
configuration attributes changed, one configuration-modify call carrying
only the changed fields, then the availability poller; independently, when
`allowed_principals` changed, one permissions-modify call; then the tag
update; finally a full read.  Any failing step aborts with its error. -/
def resourceAwsVpcEndpointServiceUpdate (serviceId : String)
    (o n : VpcEndpointServiceConfigState) (env : UpdateEnv) : CrudOutcome :=
  if vpcEndpointServiceConfigChanged o n then
    match env.modifyConfigurationResult with
    | .error e =>
      ⟨[.modifyConfiguration (mkModifyVpcEndpointServiceConfigReq serviceId o n)],
       some serviceId,
       .error ("Error modifying VPC Endpoint Service configuration: " ++ e.message)⟩
    | .ok _ =>
      match vpcEndpointServiceWaitUntilAvailableErr serviceId env.availabilityResps with
      | some msg =>
        ⟨[.modifyConfiguration (mkModifyVpcEndpointServiceConfigReq serviceId o n),
          .pollAvailable], some serviceId, .error msg⟩
      | none =>
        vpcEndpointServiceUpdatePermsPhase serviceId o n env
          [.modifyConfiguration (mkModifyVpcEndpointServiceConfigReq serviceId o n),
           .pollAvailable]
  else
    vpcEndpointServiceUpdatePermsPhase serviceId o n env []

/-! ## Delete: `resourceAwsVpcEndpointServiceDelete` -/

/-- Remote responses consumed during one delete invocation.
`deleteResult = none` means the `DeleteVpcEndpointServiceConfigurations`
call succeeded. -/
structure DeleteEnv where
  deleteResult : Option AwsError
  deletionResps : List DescribeResult

/-- Embeds `waitForVpcEndpointServiceDeletion`'s error (returned unwrapped,
line 412-414). -/
def waitForVpcEndpointServiceDeletionErr (resps : List DescribeResult) : Option String :=
  pollOutcomeErr (waitForVpcEndpointServiceDeletion resps)

/-- Embeds `resourceAwsVpcEndpointServiceDelete`: issue the delete call; an
`InvalidVpcEndpointServiceId.NotFound` error is swallowed (the resource is
already gone) and any other error aborts; then run the deletion poller and
report success only when it confirms the `Deleted` target. -/
def resourceAwsVpcEndpointServiceDelete (serviceId : String) (env : DeleteEnv) :
    List RemoteCall × Except String Unit :=
  let proceed : List RemoteCall × Except String Unit :=
    match waitForVpcEndpointServiceDeletionErr env.deletionResps with
    | some msg =>
      ([.deleteService serviceId, .pollDeletion],
       .error ("Error waiting for VPC Endpoint Service " ++ serviceId ++
         " to delete: " ++ msg))
    | none => ([.deleteService serviceId, .pollDeletion], .ok ())
  match env.deleteResult with
  | some e =>
    if isAWSErr e "InvalidVpcEndpointServiceId.NotFound" "" then proceed
    else ([.deleteService serviceId],
      .error ("Error deleting VPC Endpoint Service: " ++ e.message))
  | none => proceed

/-! ## Read: `resourceAwsVpcEndpointServiceRead` -/

/-- Result of one read invocation: the local record cleared (`d.SetId("")`
followed by a `nil` return), an error, a populated snapshot, or the Go panic
that the type assertion at line 203 would raise on a non-configuration
snapshot (unreachable, since the not-found marker only occurs with the
`Deleted` state, which is terminal). -/
inductive VpcEndpointServiceReadOutcome where
  | cleared
  | failed (msg : String)
  | populated (svc : ServiceConfiguration) (allowedPrincipals : Finset String)
  | panicked
deriving DecidableEq

/-- The `terminalStates` map of lines 183-187. -/
def vpcEndpointServiceTerminalStates : List String :=
  [serviceStateDeleted, serviceStateDeleting, serviceStateFailed]

/-- Embeds `resourceAwsVpcEndpointServiceRead` up to the field mapping: one
refresh; a refresh error in a non-`Failed` state is returned; a terminal
state (`Deleted`, `Deleting`, `Failed`) clears the local record and returns
success; otherwise the snapshot is used to populate state, and the
`DescribeVpcEndpointServicePermissions` call supplies `allowed_principals`
(the remaining per-field `d.Set` mapping is carried by the `populated`
payload). -/
def resourceAwsVpcEndpointServiceRead (serviceId : String) (resp : DescribeResult)
    (permsResult : Except AwsError (Finset String)) : VpcEndpointServiceReadOutcome :=
  let r := vpcEndpointServiceStateRefresh resp
  if r.error.isSome ∧ r.state ≠ serviceStateFailed then
    .failed ("error reading VPC Endpoint Service (" ++ serviceId ++ "): " ++
      r.error.getD "")
  else if r.state ∈ vpcEndpointServiceTerminalStates then
    .cleared
  else
    match r.snapshot with
    | .svc cfg =>
      match permsResult with
      | .error e =>
        .failed ("error reading VPC Endpoint Service permissions (" ++ serviceId ++
          "): " ++ e.message)
      | .ok principals => .populated cfg principals
    | _ => .panicked

/-! ## S3 object copy: `resource_aws_s3_object_copy.go` -/

/-- An S3 API error as inspected by the read function:
`tfawserr.ErrStatusCodeEquals(err, 404)` looks at the HTTP status code of an
`awserr.RequestFailure` (absent for non-request-failure errors). -/
structure S3Error where
  statusCode : Option Nat
  message : String
deriving DecidableEq, Repr

/-- `tfawserr.ErrStatusCodeEquals(err, code)`. -/
def errStatusCodeEquals (e : S3Error) (code : Nat) : Bool :=
  e.statusCode == some code

/-- The `s3.HeadObjectInput` built at lines 293-297 of the read function:
bucket and key are taken verbatim from the attribute bag. -/
structure HeadObjectInput where
  bucket : String
  key : String
deriving DecidableEq, Repr

/-- Result of one S3-object-copy read invocation: the local record cleared
(`d.SetId("")` and a `nil` return on HTTP 404), an error, or a populated
snapshot (the per-field mapping from the head response is boilerplate beyond
the claims and is not carried further). -/
inductive S3ObjectCopyReadOutcome where
  | cleared
  | failed (msg : String)
  | populated
deriving DecidableEq, Repr

/-- Embeds `resourceAwsS3ObjectCopyRead` up to the field mapping: a head
request on the verbatim bucket/key; a 404 clears the local record and
returns success; any other error is returned; otherwise local state is
populated. -/
def resourceAwsS3ObjectCopyRead (bucket key : String)
    (headResult : Except S3Error Unit) : HeadObjectInput × S3ObjectCopyReadOutcome :=
  (⟨bucket, key⟩,
   match headResult with
   | .error e =>
     if errStatusCodeEquals e 404 then .cleared else .failed e.message
   | .ok _ => .populated)

/-- The four `copy_if_*` attributes checked first by
`resourceAwsS3ObjectCopyUpdate`; per `d.GetOk` semantics an empty string is
indistinguishable from an unset attribute, so each is modelled as a plain
string with `""` meaning unset. -/
structure S3ObjectCopyConditions where
  copyIfMatch : String
  copyIfModifiedSince : String
  copyIfNoneMatch : String
  copyIfUnmodifiedSince : String
deriving DecidableEq, Repr

/-- `d.GetOk(key)` for the four `copy_if_*` keys iterated at lines 365-374. -/
def s3ObjectCopyConditionSet (c : S3ObjectCopyConditions) : Bool :=
  c.copyIfMatch != "" || c.copyIfModifiedSince != "" ||
    c.copyIfNoneMatch != "" || c.copyIfUnmodifiedSince != ""

/-- The argument list passed to `d.HasChanges` at lines 376-409. -/
def s3ObjectCopyUpdateArgs : List String :=
  ["acl", "bucket", "cache_control", "content_disposition", "content_encoding",
   "content_language", "content_type", "customer_algorithm", "customer_key",
   "customer_key_md5", "expected_bucket_owner", "expected_source_bucket_owner",
   "expires", "grant", "key", "kms_encryption_context", "kms_key_id", "metadata",
   "metadata_directive", "object_lock_legal_hold_status", "object_lock_mode",
   "object_lock_retain_until_date", "request_payer", "server_side_encryption",
   "source", "source_customer_algorithm", "source_customer_key",
   "source_customer_key_md5", "storage_class", "tagging_directive", "tags",
   "website_redirect"]

/-- What one S3-object-copy update invocation does remotely. -/
inductive S3UpdateAction where
  | doCopy
  | noOp
deriving DecidableEq, Repr

/-- Embeds `resourceAwsS3ObjectCopyUpdate`: if any `copy_if_*` attribute is
set, re-issue the full copy (`resourceAwsS3ObjectCopyDoCopy`) unconditionally
— the for loop over the four keys returning on the first `d.GetOk` hit is one
disjunction; otherwise copy exactly when `d.HasChanges` over the listed
arguments holds (`changed` gives each argument's `d.HasChange`); otherwise
return `nil` with no remote call. -/
def resourceAwsS3ObjectCopyUpdate (c : S3ObjectCopyConditions)
    (changed : String → Bool) : S3UpdateAction :=
  if s3ObjectCopyConditionSet c then .doCopy
  else if s3ObjectCopyUpdateArgs.any changed then .doCopy
  else .noOp

/-- The `Key` field of the `s3.CopyObjectInput` built by
`resourceAwsS3ObjectCopyDoCopy` (line 445): the attribute value verbatim. -/
def s3ObjectCopyDoCopyKey (key : String) : String := key

/-! ## S3 delete-key normalization -/

/-- `strings.TrimLeft(key, "/")` (line 424). -/
def stripLeadingSlashes (cs : List Char) : List Char :=
  cs.dropWhile (· = '/')

/-- `regexp.MustCompile(`/+`).ReplaceAllString(key, "/")` (line 425): every
maximal run of consecutive `/` characters is replaced by a single `/`. -/
def collapseSlashRuns : List Char → List Char
  | [] => []
  | c :: rest =>
    if c = '/' then '/' :: collapseSlashRuns (rest.dropWhile (· = '/'))
    else c :: collapseSlashRuns rest
termination_by l => l.length
decreasing_by
  · exact Nat.lt_succ_of_le (List.dropWhile_sublist _).length_le
  · exact Nat.lt_succ_self _

/-- The object key targeted by `resourceAwsS3ObjectCopyDelete` (lines
420-425): leading slashes stripped, then slash runs collapsed. -/
def resourceAwsS3ObjectCopyDeleteKey (key : String) : String :=
  ⟨collapseSlashRuns (stripLeadingSlashes key.data)⟩

/-- The delete issued by `resourceAwsS3ObjectCopyDelete`: both the
versioned branch (`deleteAllS3ObjectVersions`) and the unversioned branch
(`deleteS3ObjectVersion`) receive the same normalized key. -/
structure S3DeleteCall where
  bucket : String
  key : String
  allVersions : Bool
deriving DecidableEq, Repr

/-- Embeds `resourceAwsS3ObjectCopyDelete` up to the delete helpers: the
delete targets the normalized key; `hasVersionId` (`d.GetOk("version_id")`)
selects which helper runs. -/
def resourceAwsS3ObjectCopyDelete (bucket key : String) (hasVersionId : Bool) :
    S3DeleteCall :=
  ⟨bucket, resourceAwsS3ObjectCopyDeleteKey key, hasVersionId⟩

/-- Discriminator: is this call a configuration modify? -/
def RemoteCall.isModifyConfiguration : RemoteCall → Bool
  | .modifyConfiguration _ => true
  | _ => false

/-- Discriminator: is this call a permissions modify? -/
def RemoteCall.isModifyPermissions : RemoteCall → Bool
  | .modifyPermissions _ => true
  | _ => false

/-- Specification-side predicate for the delete-key normalization: no two
adjacent characters are both `/`. -/
def noDoubleSlash : List Char → Bool
  | [] => true
  | [_] => true
  | a :: b :: rest => !(a == '/' && b == '/') && noDoubleSlash (b :: rest)

/-! ## Helper lemmas -/

/-- A run of refresh results that are all error-free, non-target and pending
is skipped by the poller: polling `rs ++ tail` reduces to polling `tail`
(from some last-seen label). -/
theorem pollStates_skip_pending (pending target : List String)
    (rs tail : List RefreshResult)
    (h : ∀ r ∈ rs, r.error = none ∧ r.state ∉ target ∧ r.state ∈ pending)
    (last : String) :
    ∃ l2, pollStates pending target (rs ++ tail) last =
      pollStates pending target tail l2 := by
  induction rs generalizing last with
  | nil => exact ⟨last, rfl⟩
  | cons r rs ih =>
    obtain ⟨he, hnt, hp⟩ := h r (List.mem_cons_self ..)
    have hstep : pollStates pending target (r :: (rs ++ tail)) last
        = pollStates pending target (rs ++ tail) r.state := by
      simp [pollStates, he, hnt, hp]
    rw [List.cons_append, hstep]
    exact ih (fun x hx => h x (List.mem_cons_of_mem _ hx)) r.state

/-- A `Pending`-state describe response refreshes to an error-free pending
result for the availability poller. -/
theorem refresh_pending_ok (s : ServiceConfiguration)
    (h : s.serviceState = serviceStatePending) :
    (vpcEndpointServiceStateRefresh (.ok s)).error = none ∧
    (vpcEndpointServiceStateRefresh (.ok s)).state ∉ [serviceStateAvailable] ∧
    (vpcEndpointServiceStateRefresh (.ok s)).state ∈ [serviceStatePending] := by
  simp [vpcEndpointServiceStateRefresh, h, serviceStatePending, serviceStateFailed,
    serviceStateAvailable]

/-! ## C1: the diff engine -/

/-- C1: For every desired set `D` and observed set `O`, the diff computation
in `setVpcEndpointServiceUpdateLists` produces `toAdd = D − O` and
`toRemove = O − D`; hence `toAdd` and `toRemove` are disjoint,
`(O ∪ toAdd) − toRemove = D`, and the diff of a set against itself is empty
in both components. -/
theorem diff_engine_correct (D O : Finset String) :
    (diffEngine D O).1 = D \ O ∧
    (diffEngine D O).2 = O \ D ∧
    Disjoint (diffEngine D O).1 (diffEngine D O).2 ∧
    (O ∪ (diffEngine D O).1) \ (diffEngine D O).2 = D ∧
    (diffEngine D D).1 = ∅ ∧ (diffEngine D D).2 = ∅ := by
  refine ⟨rfl, rfl, disjoint_sdiff_sdiff, ?_, by simp [diffEngine], by simp [diffEngine]⟩
  ext x
  simp only [diffEngine, Finset.mem_sdiff, Finset.mem_union]
  tauto

/-! ## C4: the `Failed` state short-circuits polling -/

/-- C4: A refresh observing the `Failed` service state returns a non-nil
error (before any Pending/Target classification can apply), so for every
refresh sequence `pending, …, pending, failed` the availability poller
reports that failure-state error — never a timeout — regardless of how much
polling budget remains. -/
theorem failed_state_short_circuits (svc : ServiceConfiguration)
    (hf : svc.serviceState = serviceStateFailed)
    (pendings : List DescribeResult)
    (hp : ∀ r ∈ pendings, ∃ s, r = .ok s ∧ s.serviceState = serviceStatePending) :
    (vpcEndpointServiceStateRefresh (.ok svc)).error =
      some "VPC Endpoint Service is in a failed state" ∧
    vpcEndpointServiceWaitUntilAvailable (pendings ++ [.ok svc]) =
      .refreshError "VPC Endpoint Service is in a failed state" ∧
    ∀ s, vpcEndpointServiceWaitUntilAvailable (pendings ++ [.ok svc]) ≠ .timeout s := by
  have href : vpcEndpointServiceStateRefresh (.ok svc) =
      ⟨.nil, svc.serviceState, some "VPC Endpoint Service is in a failed state"⟩ := by
    simp [vpcEndpointServiceStateRefresh, hf]
  have hmain : vpcEndpointServiceWaitUntilAvailable (pendings ++ [.ok svc]) =
      .refreshError "VPC Endpoint Service is in a failed state" := by
    unfold vpcEndpointServiceWaitUntilAvailable
    rw [List.map_append]
    obtain ⟨l2, heq⟩ := pollStates_skip_pending [serviceStatePending] [serviceStateAvailable]
      (pendings.map vpcEndpointServiceStateRefresh)
      ([DescribeResult.ok svc].map vpcEndpointServiceStateRefresh)
      (by
        intro r hrm
        obtain ⟨x, hx, rfl⟩ := List.mem_map.mp hrm
        obtain ⟨s, rfl, hs⟩ := hp x hx
        exact refresh_pending_ok s hs) ""
    rw [heq]
    simp [pollStates, href]
  exact ⟨by rw [href], hmain, fun s h => by rw [hmain] at h; exact PollOutcome.noConfusion h⟩

/-- Witness for C4 at the spec's concrete sequence
`[pending, pending, failed]`. -/
theorem failed_state_short_circuits_witness :
    vpcEndpointServiceWaitUntilAvailable
      [.ok ⟨serviceStatePending⟩, .ok ⟨serviceStatePending⟩, .ok ⟨serviceStateFailed⟩] =
      .refreshError "VPC Endpoint Service is in a failed state" :=
  (failed_state_short_circuits ⟨serviceStateFailed⟩ rfl
    [.ok ⟨serviceStatePending⟩, .ok ⟨serviceStatePending⟩]
    (by
      intro r hr
      rcases List.mem_cons.mp hr with rfl | hr
      · exact ⟨_, rfl, rfl⟩
      rcases List.mem_cons.mp hr with rfl | hr
      · exact ⟨_, rfl, rfl⟩
      exact absurd hr (List.not_mem_nil r))).2.1

/-! ## C5: not-found during deletion polling is success -/

/-- C5: A refresh whose describe call fails with the recognized
`InvalidVpcEndpointServiceId.NotFound` code reports the `Deleted` label with
no error, so the deletion poller (Pending = {Available, Deleting},
Target = {Deleted}) treats disappearance of the resource as reaching the
target, not as an error. -/
theorem deletion_not_found_is_success (e : AwsError)
    (he : e.code = "InvalidVpcEndpointServiceId.NotFound")
    (rs : List DescribeResult)
    (hr : ∀ r ∈ rs, ∃ s, r = .ok s ∧
      (s.serviceState = serviceStateAvailable ∨ s.serviceState = serviceStateDeleting)) :
    vpcEndpointServiceStateRefresh (.err e) =
      ⟨.notFoundMarker, serviceStateDeleted, none⟩ ∧
    waitForVpcEndpointServiceDeletion (rs ++ [.err e]) = .success .notFoundMarker := by
  have href : vpcEndpointServiceStateRefresh (.err e) =
      ⟨.notFoundMarker, serviceStateDeleted, none⟩ := by
    simp [vpcEndpointServiceStateRefresh, isAWSErr, he, List.nil_infix]
  refine ⟨href, ?_⟩
  unfold waitForVpcEndpointServiceDeletion
  rw [List.map_append]
  obtain ⟨l2, heq⟩ := pollStates_skip_pending
    [serviceStateAvailable, serviceStateDeleting] [serviceStateDeleted]
    (rs.map vpcEndpointServiceStateRefresh)
    ([DescribeResult.err e].map vpcEndpointServiceStateRefresh)
    (by
      intro r hrm
      obtain ⟨x, hx, rfl⟩ := List.mem_map.mp hrm
      obtain ⟨s, rfl, hs⟩ := hr x hx
      rcases hs with hs | hs <;>
        simp [vpcEndpointServiceStateRefresh, hs, serviceStateAvailable,
          serviceStateDeleting, serviceStateDeleted, serviceStateFailed]) ""
  rw [heq]
  simp [pollStates, href, serviceStateDeleted]

/-- Witness for C5: delete-side refresh sequence `[deleting, not-found]`
completes successfully. -/
theorem deletion_not_found_is_success_witness :
    waitForVpcEndpointServiceDeletion
      [.ok ⟨serviceStateDeleting⟩,
       .err ⟨"InvalidVpcEndpointServiceId.NotFound", "service does not exist"⟩] =
      .success .notFoundMarker :=
  (deletion_not_found_is_success ⟨"InvalidVpcEndpointServiceId.NotFound", "service does not exist"⟩
    rfl [.ok ⟨serviceStateDeleting⟩]
    (by
      intro r hr
      rcases List.mem_cons.mp hr with rfl | hr
      · exact ⟨_, rfl, Or.inr rfl⟩
      exact absurd hr (List.not_mem_nil r))).2

/-! ## C6: idempotent delete, completion only after polling -/

/-- `pollOutcomeErr` is `none` exactly on success. -/
theorem pollOutcomeErr_eq_none (o : PollOutcome) :
    pollOutcomeErr o = none ↔ ∃ snap, o = .success snap := by
  cases o <;> simp [pollOutcomeErr]

/-- C6: The delete function treats an
`InvalidVpcEndpointServiceId.NotFound` error from the delete call exactly
like a successful delete call (continuing to the deletion poller), any other
delete-call error aborts with the propagated error before polling, and the
overall operation reports success iff the delete call succeeded or hit
not-found and the deletion poller confirmed the `Deleted` target. -/
theorem delete_idempotent_and_polled (serviceId : String) (env : DeleteEnv) :
    (∀ e, env.deleteResult = some e →
      isAWSErr e "InvalidVpcEndpointServiceId.NotFound" "" = true →
      resourceAwsVpcEndpointServiceDelete serviceId env =
        resourceAwsVpcEndpointServiceDelete serviceId ⟨none, env.deletionResps⟩) ∧
    (∀ e, env.deleteResult = some e →
      isAWSErr e "InvalidVpcEndpointServiceId.NotFound" "" = false →
      resourceAwsVpcEndpointServiceDelete serviceId env =
        ([.deleteService serviceId],
         .error ("Error deleting VPC Endpoint Service: " ++ e.message))) ∧
    ((resourceAwsVpcEndpointServiceDelete serviceId env).2 = .ok () ↔
      (env.deleteResult = none ∨
        ∃ e, env.deleteResult = some e ∧
          isAWSErr e "InvalidVpcEndpointServiceId.NotFound" "" = true) ∧
      ∃ snap, waitForVpcEndpointServiceDeletion env.deletionResps = .success snap) := by
  obtain ⟨dr, resps⟩ := env
  refine ⟨?_, ?_, ?_⟩
  · intro e hdr hAws
    simp only at hdr
    subst hdr
    simp [resourceAwsVpcEndpointServiceDelete, hAws]
  · intro e hdr hAws
    simp only at hdr
    subst hdr
    simp [resourceAwsVpcEndpointServiceDelete, hAws]
  · rcases dr with _ | e
    · cases hP : waitForVpcEndpointServiceDeletion resps <;>
        simp [resourceAwsVpcEndpointServiceDelete, waitForVpcEndpointServiceDeletionErr,
          pollOutcomeErr, hP]
    · by_cases hA : isAWSErr e "InvalidVpcEndpointServiceId.NotFound" "" = true
      · cases hP : waitForVpcEndpointServiceDeletion resps <;>
          simp [resourceAwsVpcEndpointServiceDelete, waitForVpcEndpointServiceDeletionErr,
            pollOutcomeErr, hP, hA]
      · simp only [Bool.not_eq_true] at hA
        simp [resourceAwsVpcEndpointServiceDelete, hA]

/-- Witness for C6: a not-found delete error behaves like a successful
delete call. -/
theorem delete_idempotent_and_polled_witness :
    resourceAwsVpcEndpointServiceDelete "vpce-svc-1"
        ⟨some ⟨"InvalidVpcEndpointServiceId.NotFound", "already gone"⟩,
         [.ok ⟨serviceStateDeleted⟩]⟩ =
      resourceAwsVpcEndpointServiceDelete "vpce-svc-1" ⟨none, [.ok ⟨serviceStateDeleted⟩]⟩ :=
  (delete_idempotent_and_polled "vpce-svc-1" _).1 _ rfl (by decide)

/-! ## C7: not-found on read clears local state -/

/-- C7: Read treats a recognized not-found condition as stale local state
rather than an error: a VPC endpoint service refresh reporting a terminal
(`Deleted`/`Deleting`/`Failed`) state clears the local record and returns
success, and an HTTP 404 on the S3 object copy's head request does the
same. -/
theorem read_not_found_clears_state (serviceId : String) (resp : DescribeResult)
    (permsResult : Except AwsError (Finset String))
    (hterm : (vpcEndpointServiceStateRefresh resp).state ∈ vpcEndpointServiceTerminalStates)
    (bucket key : String) (e : S3Error) (h404 : e.statusCode = some 404) :
    resourceAwsVpcEndpointServiceRead serviceId resp permsResult = .cleared ∧
    resourceAwsS3ObjectCopyRead bucket key (.error e) = (⟨bucket, key⟩, .cleared) := by
  constructor
  · have hguard : ¬((vpcEndpointServiceStateRefresh resp).error.isSome = true ∧
        (vpcEndpointServiceStateRefresh resp).state ≠ serviceStateFailed) := by
      rintro ⟨hsome, hne⟩
      cases resp with
      | ok svc =>
        by_cases hs : svc.serviceState = serviceStateFailed
        · exact hne (by simp [vpcEndpointServiceStateRefresh, hs])
        · simp [vpcEndpointServiceStateRefresh, hs] at hsome
      | err er =>
        by_cases hnf : isAWSErr er "InvalidVpcEndpointServiceId.NotFound" "" = true
        · simp [vpcEndpointServiceStateRefresh, hnf] at hsome
        · simp only [Bool.not_eq_true] at hnf
          simp [vpcEndpointServiceStateRefresh, hnf, vpcEndpointServiceTerminalStates,
            serviceStateDeleted, serviceStateDeleting, serviceStateFailed] at hterm
    simp [resourceAwsVpcEndpointServiceRead, hguard, hterm]
  · simp [resourceAwsS3ObjectCopyRead, errStatusCodeEquals, h404]

/-- Witness for C7: a `Deleting`-state refresh and a 404 head response both
clear the record and return success. -/
theorem read_not_found_clears_state_witness :
    resourceAwsVpcEndpointServiceRead "vpce-svc-1" (.ok ⟨serviceStateDeleting⟩)
        (.ok ∅) = .cleared ∧
    resourceAwsS3ObjectCopyRead "b" "k" (.error ⟨some 404, "object not found"⟩) =
      (⟨"b", "k"⟩, .cleared) :=
  read_not_found_clears_state "vpce-svc-1" (.ok ⟨serviceStateDeleting⟩) (.ok ∅)
    (by decide) "b" "k" ⟨some 404, "object not found"⟩ rfl

/-! ## C9: S3 object copy update -/

/-- C9: The S3 object copy update performs no remote call and succeeds when
no `copy_if_*` attribute is set and none of the listed arguments changed;
conversely, whenever any `copy_if_*` attribute is set it re-issues the full
copy regardless of what changed; and it is a no-op exactly when neither
condition fires. -/
theorem s3_update_copy_conditions (c : S3ObjectCopyConditions)
    (changed : String → Bool) :
    (c.copyIfMatch = "" → c.copyIfModifiedSince = "" → c.copyIfNoneMatch = "" →
      c.copyIfUnmodifiedSince = "" → s3ObjectCopyUpdateArgs.any changed = false →
      resourceAwsS3ObjectCopyUpdate c changed = .noOp) ∧
    ((c.copyIfMatch ≠ "" ∨ c.copyIfModifiedSince ≠ "" ∨ c.copyIfNoneMatch ≠ "" ∨
      c.copyIfUnmodifiedSince ≠ "") →
      resourceAwsS3ObjectCopyUpdate c changed = .doCopy) ∧
    (resourceAwsS3ObjectCopyUpdate c changed = .noOp ↔
      s3ObjectCopyConditionSet c = false ∧ s3ObjectCopyUpdateArgs.any changed = false) := by
  obtain ⟨m, ms, nm, us⟩ := c
  refine ⟨?_, ?_, ?_⟩
  · intro h1 h2 h3 h4 hargs
    simp only at h1 h2 h3 h4
    subst h1; subst h2; subst h3; subst h4
    simp [resourceAwsS3ObjectCopyUpdate, s3ObjectCopyConditionSet, hargs]
  · intro h
    have hc : s3ObjectCopyConditionSet ⟨m, ms, nm, us⟩ = true := by
      simp only [s3ObjectCopyConditionSet, Bool.or_eq_true, bne_iff_ne]
      tauto
    simp [resourceAwsS3ObjectCopyUpdate, hc]
  · cases hc : s3ObjectCopyConditionSet ⟨m, ms, nm, us⟩ <;>
      cases ha : s3ObjectCopyUpdateArgs.any changed <;>
        simp [resourceAwsS3ObjectCopyUpdate, hc, ha]

/-- Witness for C9: a set `copy_if_match` forces a copy with nothing
changed; with nothing set and nothing changed the update is a no-op. -/
theorem s3_update_copy_conditions_witness :
    resourceAwsS3ObjectCopyUpdate ⟨"etag-1", "", "", ""⟩ (fun _ => false) = .doCopy ∧
    resourceAwsS3ObjectCopyUpdate ⟨"", "", "", ""⟩ (fun _ => false) = .noOp :=
  ⟨(s3_update_copy_conditions ⟨"etag-1", "", "", ""⟩ (fun _ => false)).2.1
      (Or.inl (by decide)),
   (s3_update_copy_conditions ⟨"", "", "", ""⟩ (fun _ => false)).1
      rfl rfl rfl rfl (by decide)⟩

/-! ## C10: delete-key normalization lemmas -/

/-- Collapsing slash runs preserves the head of the list. -/
theorem collapseSlashRuns_head? (l : List Char) :
    (collapseSlashRuns l).head? = l.head? := by
  induction l using collapseSlashRuns.induct with
  | case1 => simp [collapseSlashRuns]
  | case2 rest ih => simp [collapseSlashRuns]
  | case3 c rest h ih => simp [collapseSlashRuns, h]

/-- After stripping leading slashes the head is not a slash. -/
theorem stripLeadingSlashes_head? (l : List Char) :
    (stripLeadingSlashes l).head? ≠ some '/' := by
  induction l with
  | nil => simp [stripLeadingSlashes]
  | cons c rest ih =>
    by_cases hc : c = '/'
    · simpa [stripLeadingSlashes, List.dropWhile_cons, hc] using ih
    · simp [stripLeadingSlashes, List.dropWhile_cons, hc]

/-- The output of `collapseSlashRuns` never contains two adjacent slashes. -/
theorem collapseSlashRuns_noDoubleSlash (l : List Char) :
    noDoubleSlash (collapseSlashRuns l) = true := by
  induction l using collapseSlashRuns.induct with
  | case1 => simp [collapseSlashRuns, noDoubleSlash]
  | case2 rest ih =>
    have hhd : (collapseSlashRuns (rest.dropWhile (· = '/'))).head? ≠ some '/' := by
      rw [collapseSlashRuns_head?]
      exact stripLeadingSlashes_head? rest
    rw [show collapseSlashRuns ('/' :: rest) =
      '/' :: collapseSlashRuns (rest.dropWhile (· = '/')) by simp [collapseSlashRuns]]
    cases hcs : collapseSlashRuns (rest.dropWhile (· = '/')) with
    | nil => simp [noDoubleSlash]
    | cons b ys =>
      have hb : ¬ b = '/' := by
        rw [hcs] at hhd
        simpa using hhd
      rw [hcs] at ih
      simp [noDoubleSlash, hb, ih]
  | case3 c rest h ih =>
    rw [show collapseSlashRuns (c :: rest) = c :: collapseSlashRuns rest by
      simp [collapseSlashRuns, h]]
    cases hcs : collapseSlashRuns rest with
    | nil => simp [noDoubleSlash]
    | cons b ys =>
      rw [hcs] at ih
      simp [noDoubleSlash, h, ih]

/-- Stripping leading slashes removes only slash characters. -/
theorem stripLeadingSlashes_filter (l : List Char) :
    (stripLeadingSlashes l).filter (· != '/') = l.filter (· != '/') := by
  induction l with
  | nil => rfl
  | cons c rest ih =>
    by_cases hc : c = '/'
    · subst hc
      simpa [stripLeadingSlashes, List.dropWhile_cons] using ih
    · simp [stripLeadingSlashes, List.dropWhile_cons, hc]

/-- Collapsing slash runs removes only slash characters. -/
theorem collapseSlashRuns_filter (l : List Char) :
    (collapseSlashRuns l).filter (· != '/') = l.filter (· != '/') := by
  induction l using collapseSlashRuns.induct with
  | case1 => simp [collapseSlashRuns]
  | case2 rest ih =>
    rw [show collapseSlashRuns ('/' :: rest) =
      '/' :: collapseSlashRuns (rest.dropWhile (· = '/')) by simp [collapseSlashRuns]]
    have hstrip := stripLeadingSlashes_filter rest
    simp only [stripLeadingSlashes] at hstrip
    simp [ih, hstrip]
  | case3 c rest h ih =>
    rw [show collapseSlashRuns (c :: rest) = c :: collapseSlashRuns rest by
      simp [collapseSlashRuns, h]]
    simp [List.filter_cons, ih]

/-- The collapsed list is a sublist of the input. -/
theorem collapseSlashRuns_sublist (l : List Char) :
    List.Sublist (collapseSlashRuns l) l := by
  induction l using collapseSlashRuns.induct with
  | case1 => simp [collapseSlashRuns]
  | case2 rest ih =>
    rw [show collapseSlashRuns ('/' :: rest) =
      '/' :: collapseSlashRuns (rest.dropWhile (· = '/')) by simp [collapseSlashRuns]]
    exact (ih.trans (List.dropWhile_sublist _)).cons₂ '/'
  | case3 c rest h ih =>
    rw [show collapseSlashRuns (c :: rest) = c :: collapseSlashRuns rest by
      simp [collapseSlashRuns, h]]
    exact ih.cons₂ c

/-- `noDoubleSlash` passes from a cons to its tail. -/
theorem noDoubleSlash_tail (a : Char) (xs : List Char)
    (h : noDoubleSlash (a :: xs) = true) : noDoubleSlash xs = true := by
  cases xs with
  | nil => rfl
  | cons b ys =>
    simp only [noDoubleSlash, Bool.and_eq_true] at h
    exact h.2

/-- A list with no adjacent slashes is a fixpoint of `collapseSlashRuns`. -/
theorem collapseSlashRuns_fixpoint (l : List Char) (h : noDoubleSlash l = true) :
    collapseSlashRuns l = l := by
  induction l using collapseSlashRuns.induct with
  | case1 => simp [collapseSlashRuns]
  | case2 rest ih =>
    rw [show collapseSlashRuns ('/' :: rest) =
      '/' :: collapseSlashRuns (rest.dropWhile (· = '/')) by simp [collapseSlashRuns]]
    cases rest with
    | nil => simp [collapseSlashRuns]
    | cons b ys =>
      have hb : ¬ b = '/' := by
        simp only [noDoubleSlash, Bool.and_eq_true] at h
        intro hb
        rcases h with ⟨hh, _⟩
        simp [hb] at hh
      have hdrop : (b :: ys).dropWhile (· = '/') = b :: ys := by
        simp [List.dropWhile_cons, hb]
      rw [hdrop] at ih ⊢
      rw [ih (noDoubleSlash_tail _ _ h)]
  | case3 c rest h2 ih =>
    rw [show collapseSlashRuns (c :: rest) = c :: collapseSlashRuns rest by
      simp [collapseSlashRuns, h2]]
    rw [ih (noDoubleSlash_tail _ _ h)]

/-- A list whose head is not a slash is a fixpoint of
`stripLeadingSlashes`. -/
theorem stripLeadingSlashes_fixpoint (l : List Char) (h : l.head? ≠ some '/') :
    stripLeadingSlashes l = l := by
  cases l with
  | nil => rfl
  | cons c rest =>
    have hc : ¬ c = '/' := by simpa using h
    simp [stripLeadingSlashes, List.dropWhile_cons, hc]

/-- C10: The delete of the S3 object copy targets exactly the normalized
key — all leading `/` stripped, every run of `/` collapsed to one — while
the read and copy operations use the key verbatim.  The normalized key
never starts with `/`, has no adjacent `//`, differs from the original only
by deleted `/` characters, and an already-normal key is left unchanged. -/
theorem s3_delete_key_normalization (bucket key : String) (hv : Bool)
    (headResult : Except S3Error Unit) :
    (resourceAwsS3ObjectCopyDelete bucket key hv).key =
      resourceAwsS3ObjectCopyDeleteKey key ∧
    (resourceAwsS3ObjectCopyRead bucket key headResult).1.key = key ∧
    s3ObjectCopyDoCopyKey key = key ∧
    (resourceAwsS3ObjectCopyDeleteKey key).data.head? ≠ some '/' ∧
    noDoubleSlash (resourceAwsS3ObjectCopyDeleteKey key).data = true ∧
    (resourceAwsS3ObjectCopyDeleteKey key).data.filter (· != '/') =
      key.data.filter (· != '/') ∧
    List.Sublist (resourceAwsS3ObjectCopyDeleteKey key).data key.data ∧
    (key.data.head? ≠ some '/' → noDoubleSlash key.data = true →
      resourceAwsS3ObjectCopyDeleteKey key = key) := by
  refine ⟨rfl, rfl, rfl, ?_, ?_, ?_, ?_, ?_⟩
  · show (collapseSlashRuns (stripLeadingSlashes key.data)).head? ≠ some '/'
    rw [collapseSlashRuns_head?]
    exact stripLeadingSlashes_head? key.data
  · exact collapseSlashRuns_noDoubleSlash (stripLeadingSlashes key.data)
  · show (collapseSlashRuns (stripLeadingSlashes key.data)).filter (· != '/') = _
    rw [collapseSlashRuns_filter, stripLeadingSlashes_filter]
  · exact (collapseSlashRuns_sublist _).trans (List.dropWhile_sublist _)
  · intro hhd hnds
    show String.mk (collapseSlashRuns (stripLeadingSlashes key.data)) = key
    rw [stripLeadingSlashes_fixpoint key.data hhd, collapseSlashRuns_fixpoint key.data hnds]

/-- Witness for C10: an already-normal key is deleted verbatim, and the
hypotheses of the fixpoint clause hold at `"a/b"`. -/
theorem s3_delete_key_normalization_witness :
    resourceAwsS3ObjectCopyDeleteKey "a/b" = "a/b" :=
  (s3_delete_key_normalization "bkt" "a/b" false (.ok ())).2.2.2.2.2.2.2
    (by decide) (by decide)

/-! ## C2: the create sequence -/

/-- C2: Create issues the remote create call first; the returned handle is
persisted as the resource id the moment the create call succeeds (even when
a later step fails) and never before; the availability poller runs exactly
when create succeeded; a failing create or poll aborts with that error; with
a non-empty desired `allowed_principals` set exactly one permissions-modify
call follows, adding the entire desired set with no remove list; the
sequence ends with a full read; and no step ever deletes the created
resource (no rollback). -/
theorem create_sequence (d : VpcEndpointServiceDesired) (env : CreateEnv) :
    (∀ sid, RemoteCall.deleteService sid ∉
      (resourceAwsVpcEndpointServiceCreate d env).calls) ∧
    ((resourceAwsVpcEndpointServiceCreate d env).calls.head? =
      some (.createService (mkCreateVpcEndpointServiceReq d))) ∧
    ((resourceAwsVpcEndpointServiceCreate d env).persistedId =
      env.createResult.toOption) ∧
    (∀ e, env.createResult = .error e →
      (resourceAwsVpcEndpointServiceCreate d env).calls =
        [.createService (mkCreateVpcEndpointServiceReq d)] ∧
      (resourceAwsVpcEndpointServiceCreate d env).result =
        .error ("Error creating VPC Endpoint Service configuration: " ++ e.message)) ∧
    (RemoteCall.pollAvailable ∈ (resourceAwsVpcEndpointServiceCreate d env).calls ↔
      ∃ sid, env.createResult = .ok sid) ∧
    (∀ sid msg, env.createResult = .ok sid →
      vpcEndpointServiceWaitUntilAvailableErr sid env.availabilityResps = some msg →
      (resourceAwsVpcEndpointServiceCreate d env).calls =
        [.createService (mkCreateVpcEndpointServiceReq d), .pollAvailable] ∧
      (resourceAwsVpcEndpointServiceCreate d env).result = .error msg) ∧
    (∀ sid, env.createResult = .ok sid →
      vpcEndpointServiceWaitUntilAvailableErr sid env.availabilityResps = none →
      d.allowedPrincipals.Nonempty →
      (∀ e, env.modifyPermissionsResult = .error e →
        (resourceAwsVpcEndpointServiceCreate d env).calls =
          [.createService (mkCreateVpcEndpointServiceReq d), .pollAvailable,
           .modifyPermissions ⟨sid, some d.allowedPrincipals, none⟩] ∧
        (resourceAwsVpcEndpointServiceCreate d env).result =
          .error ("error adding VPC Endpoint Service permissions: " ++ e.message)) ∧
      (env.modifyPermissionsResult = .ok () →
        (resourceAwsVpcEndpointServiceCreate d env).calls =
          [.createService (mkCreateVpcEndpointServiceReq d), .pollAvailable,
           .modifyPermissions ⟨sid, some d.allowedPrincipals, none⟩,
           .readService sid] ∧
        (resourceAwsVpcEndpointServiceCreate d env).result = env.readResult)) ∧
    (∀ sid, env.createResult = .ok sid →
      vpcEndpointServiceWaitUntilAvailableErr sid env.availabilityResps = none →
      ¬ d.allowedPrincipals.Nonempty →
      (resourceAwsVpcEndpointServiceCreate d env).calls =
        [.createService (mkCreateVpcEndpointServiceReq d), .pollAvailable,
         .readService sid] ∧
      (resourceAwsVpcEndpointServiceCreate d env).result = env.readResult) := by
  obtain ⟨cr, resps, mpr, rr⟩ := env
  cases cr with
  | error e0 =>
    have hout : resourceAwsVpcEndpointServiceCreate d ⟨.error e0, resps, mpr, rr⟩ =
        ⟨[.createService (mkCreateVpcEndpointServiceReq d)], none,
         .error ("Error creating VPC Endpoint Service configuration: " ++ e0.message)⟩ :=
      rfl
    rw [hout]
    refine ⟨by simp, rfl, rfl, ?_, by simp, by simp, by simp, by simp⟩
    intro e he
    simp only at he
    obtain rfl := Except.error.inj he
    exact ⟨rfl, rfl⟩
  | ok sid =>
    cases hw : vpcEndpointServiceWaitUntilAvailableErr sid resps with
    | some msg =>
      have hout : resourceAwsVpcEndpointServiceCreate d ⟨.ok sid, resps, mpr, rr⟩ =
          ⟨[.createService (mkCreateVpcEndpointServiceReq d), .pollAvailable],
           some sid, .error msg⟩ := by
        simp [resourceAwsVpcEndpointServiceCreate, hw]
      rw [hout]
      refine ⟨by simp, rfl, rfl, by simp, by simp, ?_, ?_, ?_⟩
      · intro sid' msg' h1 h2
        simp only at h1 h2
        obtain rfl := Except.ok.inj h1
        rw [hw] at h2
        obtain rfl := Option.some.inj h2
        exact ⟨rfl, rfl⟩
      · intro sid' h1 h2
        simp only at h1 h2
        obtain rfl := Except.ok.inj h1
        rw [hw] at h2
        exact absurd h2 (by simp)
      · intro sid' h1 h2
        simp only at h1 h2
        obtain rfl := Except.ok.inj h1
        rw [hw] at h2
        exact absurd h2 (by simp)
    | none =>
      by_cases hne : d.allowedPrincipals.Nonempty
      · cases mpr with
        | error e1 =>
          have hout : resourceAwsVpcEndpointServiceCreate d ⟨.ok sid, resps, .error e1, rr⟩ =
              ⟨[.createService (mkCreateVpcEndpointServiceReq d), .pollAvailable,
                .modifyPermissions ⟨sid, some d.allowedPrincipals, none⟩],
               some sid,
               .error ("error adding VPC Endpoint Service permissions: " ++ e1.message)⟩ := by
            simp [resourceAwsVpcEndpointServiceCreate, hw, hne]
          rw [hout]
          refine ⟨by simp, rfl, rfl, by simp, by simp, ?_, ?_, ?_⟩
          · intro sid' msg' h1 h2
            simp only at h1 h2
            obtain rfl := Except.ok.inj h1
            rw [hw] at h2
            exact absurd h2 (by simp)
          · intro sid' h1 h2 h3
            simp only at h1 h2
            obtain rfl := Except.ok.inj h1
            refine ⟨?_, ?_⟩
            · intro e he
              simp only at he
              obtain rfl := Except.error.inj he
              exact ⟨rfl, rfl⟩
            · intro he
              simp only at he
              exact absurd he (by simp)
          · intro sid' h1 h2 h3
            exact absurd hne h3
        | ok u =>
          have hout : resourceAwsVpcEndpointServiceCreate d ⟨.ok sid, resps, .ok u, rr⟩ =
              ⟨[.createService (mkCreateVpcEndpointServiceReq d), .pollAvailable,
                .modifyPermissions ⟨sid, some d.allowedPrincipals, none⟩,
                .readService sid],
               some sid, rr⟩ := by
            simp [resourceAwsVpcEndpointServiceCreate, hw, hne]
          rw [hout]
          refine ⟨by simp, rfl, rfl, by simp, by simp, ?_, ?_, ?_⟩
          · intro sid' msg' h1 h2
            simp only at h1 h2
            obtain rfl := Except.ok.inj h1
            rw [hw] at h2
            exact absurd h2 (by simp)
          · intro sid' h1 h2 h3
            simp only at h1 h2
            obtain rfl := Except.ok.inj h1
            exact ⟨fun e he => absurd he (by simp), fun _ => ⟨rfl, rfl⟩⟩
          · intro sid' h1 h2 h3
            exact absurd hne h3
      · have hout : resourceAwsVpcEndpointServiceCreate d ⟨.ok sid, resps, mpr, rr⟩ =
            ⟨[.createService (mkCreateVpcEndpointServiceReq d), .pollAvailable,
              .readService sid],
             some sid, rr⟩ := by
          simp [resourceAwsVpcEndpointServiceCreate, hw, hne]
        rw [hout]
        refine ⟨by simp, rfl, rfl, by simp, by simp, ?_, ?_, ?_⟩
        · intro sid' msg' h1 h2
          simp only at h1 h2
          obtain rfl := Except.ok.inj h1
          rw [hw] at h2
          exact absurd h2 (by simp)
        · intro sid' h1 h2 h3
          exact absurd h3 hne
        · intro sid' h1 h2 h3
          simp only at h1
          obtain rfl := Except.ok.inj h1
          exact ⟨rfl, rfl⟩

/-- Witness for C2 at the spec's scenario: acceptance not required, desired
principals `{P1, P2}`, poller reaching `Available`, one permissions call
adding both principals with no remove list, then the final read. -/
theorem create_sequence_witness :
    (resourceAwsVpcEndpointServiceCreate
        ⟨false, none, ∅, ∅, {"P1", "P2"}⟩
        ⟨.ok "vpce-svc-1",
         [.ok ⟨serviceStatePending⟩, .ok ⟨serviceStateAvailable⟩],
         .ok (), .ok ()⟩).calls =
      [.createService (mkCreateVpcEndpointServiceReq ⟨false, none, ∅, ∅, {"P1", "P2"}⟩),
       .pollAvailable,
       .modifyPermissions ⟨"vpce-svc-1", some {"P1", "P2"}, none⟩,
       .readService "vpce-svc-1"] :=
  (((create_sequence ⟨false, none, ∅, ∅, {"P1", "P2"}⟩
      ⟨.ok "vpce-svc-1",
       [.ok ⟨serviceStatePending⟩, .ok ⟨serviceStateAvailable⟩],
       .ok (), .ok ()⟩).2.2.2.2.2.2.1 "vpce-svc-1" rfl (by decide)
      (by decide)).2 rfl).1

/-! ## Update-phase helper lemmas -/

/-- The tag phase appends its own calls to the accumulator; its result does
not depend on the accumulator. -/
theorem tagsPhase_decompose (sid : String) (o n : VpcEndpointServiceConfigState)
    (env : UpdateEnv) (cs : List RemoteCall) :
    (vpcEndpointServiceUpdateTagsPhase sid o n env cs).calls =
      cs ++ (vpcEndpointServiceUpdateTagsPhase sid o n env []).calls ∧
    (vpcEndpointServiceUpdateTagsPhase sid o n env cs).result =
      (vpcEndpointServiceUpdateTagsPhase sid o n env []).result := by
  unfold vpcEndpointServiceUpdateTagsPhase
  by_cases ht : o.tags ≠ n.tags
  · simp only [if_pos ht]
    cases env.updateTagsResult <;> simp
  · simp only [if_neg ht]
    simp

/-- The tag phase alone issues only the tag update and the final read. -/
theorem tagsPhase_base_cases (sid : String) (o n : VpcEndpointServiceConfigState)
    (env : UpdateEnv) :
    (vpcEndpointServiceUpdateTagsPhase sid o n env []).calls = [.updateTags] ∨
    (vpcEndpointServiceUpdateTagsPhase sid o n env []).calls =
      [.updateTags, .readService sid] ∨
    (vpcEndpointServiceUpdateTagsPhase sid o n env []).calls = [.readService sid] := by
  unfold vpcEndpointServiceUpdateTagsPhase
  by_cases ht : o.tags ≠ n.tags
  · simp only [if_pos ht]
    cases env.updateTagsResult <;> simp
  · simp only [if_neg ht]
    simp

/-- Membership form of `tagsPhase_base_cases`. -/
theorem tagsPhase_mem (sid : String) (o n : VpcEndpointServiceConfigState)
    (env : UpdateEnv) (c : RemoteCall)
    (hc : c ∈ (vpcEndpointServiceUpdateTagsPhase sid o n env []).calls) :
    c = .updateTags ∨ c = .readService sid := by
  rcases tagsPhase_base_cases sid o n env with h | h | h <;> rw [h] at hc <;>
    simp only [List.mem_cons, List.mem_singleton, List.not_mem_nil, or_false] at hc <;>
    tauto

/-- When the tag update does not fail, the tag phase ends with the full read
and returns the read's result. -/
theorem tagsPhase_success (sid : String) (o n : VpcEndpointServiceConfigState)
    (env : UpdateEnv) (ht : o.tags ≠ n.tags → env.updateTagsResult = .ok ()) :
    (vpcEndpointServiceUpdateTagsPhase sid o n env []).calls.getLast? =
      some (.readService sid) ∧
    (vpcEndpointServiceUpdateTagsPhase sid o n env []).result = env.readResult := by
  unfold vpcEndpointServiceUpdateTagsPhase
  by_cases h : o.tags ≠ n.tags
  · rw [if_pos h, ht h]
    simp
  · rw [if_neg h]
    simp

/-- The permissions phase appends its own calls to the accumulator; its
result does not depend on the accumulator. -/
theorem permsPhase_decompose (sid : String) (o n : VpcEndpointServiceConfigState)
    (env : UpdateEnv) (cs : List RemoteCall) :
    (vpcEndpointServiceUpdatePermsPhase sid o n env cs).calls =
      cs ++ (vpcEndpointServiceUpdatePermsPhase sid o n env []).calls ∧
    (vpcEndpointServiceUpdatePermsPhase sid o n env cs).result =
      (vpcEndpointServiceUpdatePermsPhase sid o n env []).result := by
  unfold vpcEndpointServiceUpdatePermsPhase
  by_cases hp : o.allowedPrincipals ≠ n.allowedPrincipals
  · simp only [if_pos hp]
    cases env.modifyPermissionsResult with
    | error e => simp
    | ok u =>
      simp only [List.nil_append]
      have h1 := tagsPhase_decompose sid o n env
        (cs ++ [.modifyPermissions (mkModifyVpcEndpointServicePermReq sid o n)])
      have h2 := tagsPhase_decompose sid o n env
        [.modifyPermissions (mkModifyVpcEndpointServicePermReq sid o n)]
      exact ⟨by rw [h1.1, h2.1, List.append_assoc], by rw [h1.2, h2.2]⟩
  · simp only [if_neg hp]
    exact tagsPhase_decompose sid o n env cs

/-- The permissions phase alone issues only the permissions modify (with the
diffed request), the tag update, and the final read. -/
theorem permsPhase_mem (sid : String) (o n : VpcEndpointServiceConfigState)
    (env : UpdateEnv) (c : RemoteCall)
    (hc : c ∈ (vpcEndpointServiceUpdatePermsPhase sid o n env []).calls) :
    c = .modifyPermissions (mkModifyVpcEndpointServicePermReq sid o n) ∨
    c = .updateTags ∨ c = .readService sid := by
  unfold vpcEndpointServiceUpdatePermsPhase at hc
  by_cases hp : o.allowedPrincipals ≠ n.allowedPrincipals
  · rw [if_pos hp] at hc
    revert hc
    cases env.modifyPermissionsResult with
    | error e =>
      intro hc
      simp only [List.nil_append, List.mem_singleton] at hc
      exact Or.inl hc
    | ok u =>
      intro hc
      rw [(tagsPhase_decompose sid o n env _).1] at hc
      rcases List.mem_append.mp hc with h | h
      · simp only [List.nil_append, List.mem_singleton] at h
        exact Or.inl h
      · exact Or.inr (tagsPhase_mem sid o n env c h)
  · rw [if_neg hp] at hc
    exact Or.inr (tagsPhase_mem sid o n env c hc)

/-- A permissions-modify call appears in the permissions phase exactly when
`allowed_principals` changed. -/
theorem permsPhase_perm_iff (sid : String) (o n : VpcEndpointServiceConfigState)
    (env : UpdateEnv) :
    (∃ req, RemoteCall.modifyPermissions req ∈
      (vpcEndpointServiceUpdatePermsPhase sid o n env []).calls) ↔
    o.allowedPrincipals ≠ n.allowedPrincipals := by
  constructor
  · rintro ⟨req, hreq⟩
    by_contra hp
    unfold vpcEndpointServiceUpdatePermsPhase at hreq
    rw [if_neg (fun hne => hne hp)] at hreq
    rcases tagsPhase_mem sid o n env _ hreq with h | h <;> exact RemoteCall.noConfusion h
  · intro hp
    refine ⟨mkModifyVpcEndpointServicePermReq sid o n, ?_⟩
    unfold vpcEndpointServiceUpdatePermsPhase
    rw [if_pos hp]
    cases env.modifyPermissionsResult with
    | error e => simp
    | ok u =>
      rw [(tagsPhase_decompose sid o n env _).1]
      simp

/-- The permissions phase issues at most one permissions-modify call. -/
theorem permsPhase_countP (sid : String) (o n : VpcEndpointServiceConfigState)
    (env : UpdateEnv) :
    (vpcEndpointServiceUpdatePermsPhase sid o n env []).calls.countP
      RemoteCall.isModifyPermissions ≤ 1 := by
  have htags : (vpcEndpointServiceUpdateTagsPhase sid o n env []).calls.countP
      RemoteCall.isModifyPermissions = 0 := by
    rw [List.countP_eq_zero]
    intro a ha
    rcases tagsPhase_mem sid o n env a ha with h | h <;> subst h <;>
      simp [RemoteCall.isModifyPermissions]
  unfold vpcEndpointServiceUpdatePermsPhase
  by_cases hp : o.allowedPrincipals ≠ n.allowedPrincipals
  · rw [if_pos hp]
    cases env.modifyPermissionsResult with
    | error e => simp [List.countP_cons, RemoteCall.isModifyPermissions]
    | ok u =>
      rw [(tagsPhase_decompose sid o n env _).1, List.countP_append, htags]
      simp [List.countP_cons, RemoteCall.isModifyPermissions]
  · rw [if_neg hp, htags]
    exact Nat.zero_le 1

/-- When neither the permissions modify nor the tag update fails, the
permissions phase ends with the full read and returns the read's result. -/
theorem permsPhase_success (sid : String) (o n : VpcEndpointServiceConfigState)
    (env : UpdateEnv)
    (hperm : o.allowedPrincipals ≠ n.allowedPrincipals →
      env.modifyPermissionsResult = .ok ())
    (htag : o.tags ≠ n.tags → env.updateTagsResult = .ok ()) :
    (vpcEndpointServiceUpdatePermsPhase sid o n env []).calls.getLast? =
      some (.readService sid) ∧
    (vpcEndpointServiceUpdatePermsPhase sid o n env []).result = env.readResult := by
  unfold vpcEndpointServiceUpdatePermsPhase
  by_cases hp : o.allowedPrincipals ≠ n.allowedPrincipals
  · rw [if_pos hp, hperm hp]
    have hd := tagsPhase_decompose sid o n env
      ([] ++ [.modifyPermissions (mkModifyVpcEndpointServicePermReq sid o n)])
    have hs := tagsPhase_success sid o n env htag
    constructor
    · rw [hd.1, List.getLast?_append, hs.1]
      simp
    · rw [hd.2, hs.2]
  · rw [if_neg hp]
    exact tagsPhase_success sid o n env htag

/-- Unfolding the update when no configuration field changed. -/
theorem update_unfold_nochange (sid : String) (o n : VpcEndpointServiceConfigState)
    (env : UpdateEnv) (h : vpcEndpointServiceConfigChanged o n = false) :
    resourceAwsVpcEndpointServiceUpdate sid o n env =
      vpcEndpointServiceUpdatePermsPhase sid o n env [] := by
  unfold resourceAwsVpcEndpointServiceUpdate
  rw [if_neg (by simp [h])]

/-- Unfolding the update when the configuration modify call fails. -/
theorem update_unfold_cfgerr (sid : String) (o n : VpcEndpointServiceConfigState)
    (env : UpdateEnv) (e : AwsError)
    (h : vpcEndpointServiceConfigChanged o n = true)
    (he : env.modifyConfigurationResult = .error e) :
    resourceAwsVpcEndpointServiceUpdate sid o n env =
      ⟨[.modifyConfiguration (mkModifyVpcEndpointServiceConfigReq sid o n)],
       some sid,
       .error ("Error modifying VPC Endpoint Service configuration: " ++ e.message)⟩ := by
  unfold resourceAwsVpcEndpointServiceUpdate
  rw [if_pos h, he]

/-- Unfolding the update when the configuration modify succeeds but the
availability poller fails. -/
theorem update_unfold_pollerr (sid : String) (o n : VpcEndpointServiceConfigState)
    (env : UpdateEnv) (msg : String)
    (h : vpcEndpointServiceConfigChanged o n = true)
    (he : env.modifyConfigurationResult = .ok ())
    (hw : vpcEndpointServiceWaitUntilAvailableErr sid env.availabilityResps = some msg) :
    resourceAwsVpcEndpointServiceUpdate sid o n env =
      ⟨[.modifyConfiguration (mkModifyVpcEndpointServiceConfigReq sid o n),
        .pollAvailable], some sid, .error msg⟩ := by
  unfold resourceAwsVpcEndpointServiceUpdate
  rw [if_pos h, he, hw]

/-- Unfolding the update when the configuration phase succeeds. -/
theorem update_unfold_cfgok (sid : String) (o n : VpcEndpointServiceConfigState)
    (env : UpdateEnv)
    (h : vpcEndpointServiceConfigChanged o n = true)
    (he : env.modifyConfigurationResult = .ok ())
    (hw : vpcEndpointServiceWaitUntilAvailableErr sid env.availabilityResps = none) :
    resourceAwsVpcEndpointServiceUpdate sid o n env =
      vpcEndpointServiceUpdatePermsPhase sid o n env
        [.modifyConfiguration (mkModifyVpcEndpointServiceConfigReq sid o n),
         .pollAvailable] := by
  unfold resourceAwsVpcEndpointServiceUpdate
  rw [if_pos h, he, hw]

/-- The permissions phase never issues a configuration modify. -/
theorem permsPhase_no_cfg (sid : String) (o n : VpcEndpointServiceConfigState)
    (env : UpdateEnv) (req : ModifyVpcEndpointServiceConfigurationInput) :
    RemoteCall.modifyConfiguration req ∉
      (vpcEndpointServiceUpdatePermsPhase sid o n env []).calls := by
  intro h
  rcases permsPhase_mem sid o n env _ h with h2 | h2 | h2 <;> exact RemoteCall.noConfusion h2

/-- The permissions phase never runs the availability poller. -/
theorem permsPhase_no_poll (sid : String) (o n : VpcEndpointServiceConfigState)
    (env : UpdateEnv) :
    RemoteCall.pollAvailable ∉
      (vpcEndpointServiceUpdatePermsPhase sid o n env []).calls := by
  intro h
  rcases permsPhase_mem sid o n env _ h with h2 | h2 | h2 <;> exact RemoteCall.noConfusion h2

/-- No configuration-modify calls are counted in the permissions phase. -/
theorem permsPhase_cfg_countP (sid : String) (o n : VpcEndpointServiceConfigState)
    (env : UpdateEnv) :
    (vpcEndpointServiceUpdatePermsPhase sid o n env []).calls.countP
      RemoteCall.isModifyConfiguration = 0 := by
  rw [List.countP_eq_zero]
  intro a ha
  rcases permsPhase_mem sid o n env a ha with h | h | h <;> subst h <;>
    simp [RemoteCall.isModifyConfiguration]

/-- A two-element sublist cannot straddle an append when its first element
avoids the left part and its second avoids the right part. -/
theorem no_sublist_pair_across (x y : RemoteCall) (A B : List RemoteCall)
    (hxA : x ∉ A) (hyB : y ∉ B) : ¬ List.Sublist [x, y] (A ++ B) := by
  intro h
  rw [List.sublist_append_iff] at h
  obtain ⟨l1, l2, heq, h1, h2⟩ := h
  cases l1 with
  | nil =>
    rw [List.nil_append] at heq
    subst heq
    exact hyB (h2.mem (by simp))
  | cons a t1 =>
    cases t1 with
    | nil =>
      simp only [List.cons_append, List.nil_append, List.cons.injEq] at heq
      obtain ⟨rfl, rfl⟩ := heq
      exact hyB (h2.mem (by simp))
    | cons b t2 =>
      simp only [List.cons_append, List.cons.injEq] at heq
      obtain ⟨rfl, rfl, hrest⟩ := heq
      exact hxA (h1.mem (by simp))

/-! ## C3: the update sequence -/

/-- C3: Update issues at most one configuration-modify call, present exactly
when one of `acceptance_required`, `gateway_load_balancer_arns`,
`network_load_balancer_arns`, `private_dns_name` changed and carrying only
the changed fields, with set-valued fields as diffed add/remove lists; the
availability poller runs exactly after a successful configuration modify,
directly following it; independently, at most one permissions-modify call,
present (with the diffed allowed-principal add/remove lists) exactly when
`allowed_principals` changed and the configuration phase passed, and never
followed by a poller run; and when every step succeeds the trace ends with
the full read. -/
theorem update_sequence (sid : String) (o n : VpcEndpointServiceConfigState)
    (env : UpdateEnv) :
    ((resourceAwsVpcEndpointServiceUpdate sid o n env).calls.countP
        RemoteCall.isModifyConfiguration ≤ 1) ∧
    ((∃ req, RemoteCall.modifyConfiguration req ∈
        (resourceAwsVpcEndpointServiceUpdate sid o n env).calls) ↔
      vpcEndpointServiceConfigChanged o n = true) ∧
    (∀ req, RemoteCall.modifyConfiguration req ∈
        (resourceAwsVpcEndpointServiceUpdate sid o n env).calls →
      req = mkModifyVpcEndpointServiceConfigReq sid o n) ∧
    (RemoteCall.pollAvailable ∈
        (resourceAwsVpcEndpointServiceUpdate sid o n env).calls ↔
      vpcEndpointServiceConfigChanged o n = true ∧
        env.modifyConfigurationResult = .ok ()) ∧
    (vpcEndpointServiceConfigChanged o n = true →
      env.modifyConfigurationResult = .ok () →
      (resourceAwsVpcEndpointServiceUpdate sid o n env).calls.take 2 =
        [.modifyConfiguration (mkModifyVpcEndpointServiceConfigReq sid o n),
         .pollAvailable]) ∧
    ((resourceAwsVpcEndpointServiceUpdate sid o n env).calls.countP
        RemoteCall.isModifyPermissions ≤ 1) ∧
    (∀ req, RemoteCall.modifyPermissions req ∈
        (resourceAwsVpcEndpointServiceUpdate sid o n env).calls →
      req = mkModifyVpcEndpointServicePermReq sid o n) ∧
    ((∃ req, RemoteCall.modifyPermissions req ∈
        (resourceAwsVpcEndpointServiceUpdate sid o n env).calls) ↔
      (o.allowedPrincipals ≠ n.allowedPrincipals ∧
        (vpcEndpointServiceConfigChanged o n = true →
          env.modifyConfigurationResult = .ok () ∧
          vpcEndpointServiceWaitUntilAvailableErr sid env.availabilityResps = none))) ∧
    (∀ req, ¬ List.Sublist
        [RemoteCall.modifyPermissions req, RemoteCall.pollAvailable]
        (resourceAwsVpcEndpointServiceUpdate sid o n env).calls) ∧
    ((vpcEndpointServiceConfigChanged o n = true →
        env.modifyConfigurationResult = .ok () ∧
        vpcEndpointServiceWaitUntilAvailableErr sid env.availabilityResps = none) →
      (o.allowedPrincipals ≠ n.allowedPrincipals →
        env.modifyPermissionsResult = .ok ()) →
      (o.tags ≠ n.tags → env.updateTagsResult = .ok ()) →
      (resourceAwsVpcEndpointServiceUpdate sid o n env).calls.getLast? =
        some (.readService sid) ∧
      (resourceAwsVpcEndpointServiceUpdate sid o n env).result = env.readResult) := by
  by_cases hcfg : vpcEndpointServiceConfigChanged o n = true
  · cases hmc : env.modifyConfigurationResult with
    | error e =>
      rw [update_unfold_cfgerr sid o n env e hcfg hmc]
      refine ⟨by simp [List.countP_cons, RemoteCall.isModifyConfiguration], ?_, ?_, ?_,
        ?_, by simp [List.countP_cons, RemoteCall.isModifyPermissions], by simp, ?_,
        ?_, ?_⟩
      · simp [hcfg]
      · intro req hreq
        simp only [List.mem_singleton, RemoteCall.modifyConfiguration.injEq] at hreq
        exact hreq
      · simp
      · intro _ habs
        exact Except.noConfusion habs
      · simp [hcfg]
      · intro req h
        have := h.length_le
        simp at this
      · intro h1 _ _
        obtain ⟨habs, _⟩ := h1 hcfg
        exact Except.noConfusion habs
    | ok u =>
      cases u
      cases hw : vpcEndpointServiceWaitUntilAvailableErr sid env.availabilityResps with
      | some msg =>
        rw [update_unfold_pollerr sid o n env msg hcfg hmc hw]
        refine ⟨by simp [List.countP_cons, RemoteCall.isModifyConfiguration], ?_, ?_, ?_,
          ?_, by simp [List.countP_cons, RemoteCall.isModifyPermissions], by simp, ?_,
          ?_, ?_⟩
        · simp [hcfg]
        · intro req hreq
          simp only [List.mem_cons, List.mem_singleton] at hreq
          rcases hreq with h | h
          · exact RemoteCall.modifyConfiguration.inj h
          · exact absurd h (by simp)
        · simp [hcfg]
        · intro _ _
          rfl
        · simp [hcfg]
        · intro req h
          have hmem := h.mem (List.mem_cons_self ..)
          simp at hmem
        · intro h1 _ _
          obtain ⟨_, habs⟩ := h1 hcfg
          exact Option.noConfusion habs
      | none =>
        rw [update_unfold_cfgok sid o n env hcfg hmc hw]
        have hdec := permsPhase_decompose sid o n env
          [.modifyConfiguration (mkModifyVpcEndpointServiceConfigReq sid o n),
           .pollAvailable]
        rw [hdec.1]
        refine ⟨?_, ?_, ?_, ?_, ?_, ?_, ?_, ?_, ?_, ?_⟩
        · rw [List.countP_append, permsPhase_cfg_countP]
          simp [List.countP_cons, RemoteCall.isModifyConfiguration]
        · simp only [hcfg, iff_true]
          exact ⟨mkModifyVpcEndpointServiceConfigReq sid o n, by simp⟩
        · intro req hreq
          rcases List.mem_append.mp hreq with h | h
          · simp only [List.mem_cons, List.mem_singleton] at h
            rcases h with h | h
            · exact RemoteCall.modifyConfiguration.inj h
            · exact absurd h (by simp)
          · exact absurd h (permsPhase_no_cfg sid o n env req)
        · simp [hmc, hcfg]
        · intro _ _
          rw [show (2 : Nat) = ([RemoteCall.modifyConfiguration
              (mkModifyVpcEndpointServiceConfigReq sid o n),
              RemoteCall.pollAvailable]).length from rfl, List.take_left]
        · rw [List.countP_append]
          have : ([RemoteCall.modifyConfiguration
              (mkModifyVpcEndpointServiceConfigReq sid o n),
              RemoteCall.pollAvailable]).countP RemoteCall.isModifyPermissions = 0 := by
            simp [List.countP_cons, RemoteCall.isModifyPermissions]
          rw [this]
          simpa using permsPhase_countP sid o n env
        · intro req hreq
          rcases List.mem_append.mp hreq with h | h
          · simp at h
          · rcases permsPhase_mem sid o n env _ h with h2 | h2 | h2
            · exact RemoteCall.modifyPermissions.inj h2
            · exact RemoteCall.noConfusion h2
            · exact RemoteCall.noConfusion h2
        · constructor
          · rintro ⟨req, hreq⟩
            rcases List.mem_append.mp hreq with h | h
            · simp at h
            · exact ⟨(permsPhase_perm_iff sid o n env).mp ⟨req, h⟩, fun _ => ⟨rfl, rfl⟩⟩
          · rintro ⟨hne, _⟩
            obtain ⟨req, hreq⟩ := (permsPhase_perm_iff sid o n env).mpr hne
            exact ⟨req, List.mem_append.mpr (Or.inr hreq)⟩
        · intro req
          exact no_sublist_pair_across _ _ _ _ (by simp) (permsPhase_no_poll sid o n env)
        · intro _ hperm htag
          have hs := permsPhase_success sid o n env hperm htag
          constructor
          · rw [List.getLast?_append, hs.1]
            simp
          · rw [hdec.2, hs.2]
  · have hcfg' : vpcEndpointServiceConfigChanged o n = false := by
      simpa using hcfg
    rw [update_unfold_nochange sid o n env hcfg']
    refine ⟨?_, ?_, ?_, ?_, ?_, ?_, ?_, ?_, ?_, ?_⟩
    · rw [permsPhase_cfg_countP]
      exact Nat.zero_le 1
    · simp only [hcfg', Bool.false_eq_true, iff_false]
      rintro ⟨req, hreq⟩
      exact permsPhase_no_cfg sid o n env req hreq
    · intro req hreq
      exact absurd hreq (permsPhase_no_cfg sid o n env req)
    · simp only [hcfg', Bool.false_eq_true, false_and, iff_false]
      exact permsPhase_no_poll sid o n env
    · intro habs
      rw [hcfg'] at habs
      exact Bool.noConfusion habs
    · exact permsPhase_countP sid o n env
    · intro req hreq
      rcases permsPhase_mem sid o n env _ hreq with h2 | h2 | h2
      · exact RemoteCall.modifyPermissions.inj h2
      · exact RemoteCall.noConfusion h2
      · exact RemoteCall.noConfusion h2
    · rw [permsPhase_perm_iff sid o n env]
      constructor
      · intro hne
        exact ⟨hne, fun habs => absurd (hcfg'.symm.trans habs) (by simp)⟩
      · rintro ⟨hne, _⟩
        exact hne
    · intro req h
      exact permsPhase_no_poll sid o n env (h.mem (by simp))
    · intro _ hperm htag
      exact permsPhase_success sid o n env hperm htag

/-- Witness for C3 at the spec's scenario: `allowed_principals` changing
from `{P1, P2}` to `{P2, P3}` issues one permissions-modify call with
`add = [P3]` and `remove = [P1]`. -/
theorem update_sequence_witness :
    ∃ req, RemoteCall.modifyPermissions req ∈
        (resourceAwsVpcEndpointServiceUpdate "vpce-svc-1"
          ⟨false, "", ∅, ∅, {"P1", "P2"}, []⟩
          ⟨false, "", ∅, ∅, {"P2", "P3"}, []⟩
          ⟨.ok (), [], .ok (), .ok (), .ok ()⟩).calls ∧
      req = ⟨"vpce-svc-1", some {"P3"}, some {"P1"}⟩ := by
  obtain ⟨req, hreq⟩ :=
    (update_sequence "vpce-svc-1" ⟨false, "", ∅, ∅, {"P1", "P2"}, []⟩
      ⟨false, "", ∅, ∅, {"P2", "P3"}, []⟩
      ⟨.ok (), [], .ok (), .ok (), .ok ()⟩).2.2.2.2.2.2.2.1.mpr
      ⟨by decide, fun h => absurd h (by decide)⟩
  refine ⟨req, hreq, ?_⟩
  have := (update_sequence "vpce-svc-1" ⟨false, "", ∅, ∅, {"P1", "P2"}, []⟩
      ⟨false, "", ∅, ∅, {"P2", "P3"}, []⟩
      ⟨.ok (), [], .ok (), .ok (), .ok ()⟩).2.2.2.2.2.2.1 req hreq
  rw [this]
  decide

/-! ## C8: empty diffs stay absent, empty changes make no call -/

/-- C8: An add or remove list appears in a modify request only when
non-empty: a populated field is exactly the corresponding non-empty set
difference, an empty computed difference leaves the field absent, an
unchanged `allowed_principals` attribute produces no permissions-modify
call, and unchanged configuration attributes produce no configuration-modify
call. -/
theorem update_request_lists_nonempty (o n : Finset String) (sid : String)
    (os ns : VpcEndpointServiceConfigState) (env : UpdateEnv) :
    (∀ s, (setVpcEndpointServiceUpdateLists o n).1 = some s →
      s = n \ o ∧ s ≠ ∅) ∧
    (∀ s, (setVpcEndpointServiceUpdateLists o n).2 = some s →
      s = o \ n ∧ s ≠ ∅) ∧
    (n \ o = ∅ → (setVpcEndpointServiceUpdateLists o n).1 = none) ∧
    (o \ n = ∅ → (setVpcEndpointServiceUpdateLists o n).2 = none) ∧
    (os.allowedPrincipals = ns.allowedPrincipals →
      ∀ req, RemoteCall.modifyPermissions req ∉
        (resourceAwsVpcEndpointServiceUpdate sid os ns env).calls) ∧
    (vpcEndpointServiceConfigChanged os ns = false →
      ∀ req, RemoteCall.modifyConfiguration req ∉
        (resourceAwsVpcEndpointServiceUpdate sid os ns env).calls) := by
  refine ⟨?_, ?_, ?_, ?_, ?_, ?_⟩
  · intro s hs
    unfold setVpcEndpointServiceUpdateLists diffEngine at hs
    by_cases hon : o ≠ n
    · by_cases hne : (n \ o).Nonempty
      · simp only [if_pos hon, if_pos hne, Option.some.injEq] at hs
        refine ⟨hs.symm, ?_⟩
        rw [← hs]
        exact Finset.nonempty_iff_ne_empty.mp hne
      · simp only [if_pos hon, if_neg hne] at hs
        exact Option.noConfusion hs
    · simp only [if_neg hon] at hs
      exact Option.noConfusion hs
  · intro s hs
    unfold setVpcEndpointServiceUpdateLists diffEngine at hs
    by_cases hon : o ≠ n
    · by_cases hne : (o \ n).Nonempty
      · simp only [if_pos hon, if_pos hne, Option.some.injEq] at hs
        refine ⟨hs.symm, ?_⟩
        rw [← hs]
        exact Finset.nonempty_iff_ne_empty.mp hne
      · simp only [if_pos hon, if_neg hne] at hs
        exact Option.noConfusion hs
    · simp only [if_neg hon] at hs
      exact Option.noConfusion hs
  · intro hempty
    unfold setVpcEndpointServiceUpdateLists diffEngine
    by_cases hon : o ≠ n
    · have hne : ¬ (n \ o).Nonempty := by simp [hempty]
      simp [if_pos hon, if_neg hne]
    · simp [if_neg hon]
  · intro hempty
    unfold setVpcEndpointServiceUpdateLists diffEngine
    by_cases hon : o ≠ n
    · have hne : ¬ (o \ n).Nonempty := by simp [hempty]
      simp [if_pos hon, if_neg hne]
    · simp [if_neg hon]
  · intro hp req hreq
    have hne : ¬ os.allowedPrincipals ≠ ns.allowedPrincipals := fun h => h hp
    by_cases hcfg : vpcEndpointServiceConfigChanged os ns = true
    · cases hmc : env.modifyConfigurationResult with
      | error e =>
        rw [update_unfold_cfgerr sid os ns env e hcfg hmc] at hreq
        simp at hreq
      | ok u =>
        cases u
        cases hw : vpcEndpointServiceWaitUntilAvailableErr sid env.availabilityResps with
        | some msg =>
          rw [update_unfold_pollerr sid os ns env msg hcfg hmc hw] at hreq
          simp at hreq
        | none =>
          rw [update_unfold_cfgok sid os ns env hcfg hmc hw,
            (permsPhase_decompose sid os ns env _).1] at hreq
          rcases List.mem_append.mp hreq with h | h
          · simp at h
          · unfold vpcEndpointServiceUpdatePermsPhase at h
            rw [if_neg hne] at h
            rcases tagsPhase_mem sid os ns env _ h with h2 | h2 <;>
              exact RemoteCall.noConfusion h2
    · rw [update_unfold_nochange sid os ns env (by simpa using hcfg)] at hreq
      unfold vpcEndpointServiceUpdatePermsPhase at hreq
      rw [if_neg hne] at hreq
      rcases tagsPhase_mem sid os ns env _ hreq with h2 | h2 <;>
        exact RemoteCall.noConfusion h2
  · intro hcfg req hreq
    rw [update_unfold_nochange sid os ns env hcfg] at hreq
    exact permsPhase_no_cfg sid os ns env req hreq

/-- Witness for C8: a diff whose remove side is empty leaves the remove
field absent. -/
theorem update_request_lists_nonempty_witness :
    (setVpcEndpointServiceUpdateLists ({"a"} : Finset String) {"a", "b"}).2 = none :=
  (update_request_lists_nonempty {"a"} {"a", "b"} "vpce-svc-1"
    ⟨false, "", ∅, ∅, ∅, []⟩ ⟨false, "", ∅, ∅, ∅, []⟩
    ⟨.ok (), [], .ok (), .ok (), .ok ()⟩).2.2.2.1 (by decide)

end TfAws
